import Mathlib

/-!
Verification of the incremental-compilation dirty/clean annotation checker
(`src/librustc_incremental/persist/dirty_clean.rs`).

The embedding models attributes as named keys with optional string values,
the HIR as a list of nodes carrying attributes, the dependency graph as a
pair of fingerprint lookup functions, and the diagnostic session as
accumulated lists of messages.  Fatal errors (`span_fatal`) are modelled
with `Except.error`; the metadata checker's possible panic (unguarded map
indexing) is modelled with an explicit `panicked` error value.
-/

set_option autoImplicit false

namespace DirtyClean

def EXCEPT : String := "except"

def LABEL : String := "label"

def CFG : String := "cfg"

def ATTR_DIRTY : String := "rustc_dirty"

def ATTR_CLEAN : String := "rustc_clean"

def ATTR_DIRTY_METADATA : String := "rustc_metadata_dirty"

def ATTR_CLEAN_METADATA : String := "rustc_metadata_clean"

/-- DepNodes for Hir, which is pretty much everything. -/
def BASE_HIR : List String := ["Hir", "HirBody"]

/-- DepNodes for MirValidated/Optimized (functions + methods). -/
def BASE_MIR : List String := ["MirValidated", "MirOptimized"]

/-- DepNodes for functions + methods. -/
def BASE_FN : List String :=
  ["TypeOfItem", "GenericsOfItem", "PredicatesOfItem", "FnSignature", "TypeckTables"]

/-- Extra DepNodes for methods (+fn). -/
def EXTRA_METHOD : List String := ["AssociatedItems"]

/-- Extra DepNodes for trait-methods (+method+fn). -/
def EXTRA_TRAIT_METHOD : List String := ["TraitOfItem"]

/-- Struct, Enum and Union DepNodes. -/
def BASE_STRUCT : List String := ["TypeOfItem", "GenericsOfItem", "PredicatesOfItem"]

/-- For typedef, constants, and statics. -/
def BASE_CONST : List String := ["TypeOfItem", "AssociatedItems", "TraitOfItem"]

/-- Trait definitions. -/
def BASE_TRAIT : List String :=
  ["TraitDefOfItem", "TraitImpls", "SpecializationGraph", "ObjectSafety",
   "AssociatedItemDefIds", "GenericsOfItem", "PredicatesOfItem"]

/-- `impl` implementation of struct/trait. -/
def BASE_IMPL : List String := ["ImplTraitRef", "AssociatedItemDefIds", "GenericsOfItem"]

def LABELS_FN : List (List String) := [BASE_HIR, BASE_MIR, BASE_FN]

def LABELS_METHOD : List (List String) := [BASE_HIR, BASE_MIR, BASE_FN, EXTRA_METHOD]

def LABELS_TRAIT_METHOD : List (List String) :=
  [BASE_HIR, BASE_MIR, BASE_FN, EXTRA_METHOD, EXTRA_TRAIT_METHOD]

def LABELS_TRAIT : List (List String) := [BASE_HIR, BASE_TRAIT]

def LABELS_IMPL : List (List String) := [BASE_HIR, BASE_IMPL]

def LABELS_STRUCT : List (List String) := [BASE_HIR, BASE_STRUCT]

def LABELS_CONST : List (List String) := [BASE_HIR, BASE_CONST]

/-- `type Labels = HashSet<String>`: modelled as a duplicate-free list,
membership being the set semantics. -/
abbrev Labels := List String

/-- One entry of an attribute's `meta_item_list` (a named key with an
optional associated string value). -/
structure MetaItem where
  name : String
  value : Option String
deriving DecidableEq

/-- One attribute instance: its stable `AttrId`, its name (`check_name`
compares against this), and its meta item list (absent list behaves as
empty, matching `meta_item_list().unwrap_or_else(Vec::new)`). -/
structure Attribute where
  id : Nat
  name : String
  items : List MetaItem
deriving DecidableEq

/-- `expect_associated_value`: value of a meta item, or a fatal error. -/
def expect_associated_value (item : MetaItem) : Except String String :=
  match item.value with
  | some v => Except.ok v
  | none => Except.error ("associated value expected for `" ++ item.name ++ "`")

/-- The loop of `check_config`: fold over the meta items recording the last
`cfg=` evaluation and whether a `label`/`except` key was seen.  The result
triple is `(cfg, except-seen, label-seen)`. -/
def check_config_go (config : List String) :
    List MetaItem → Option Bool → Bool → Bool → Except String (Option Bool × Bool × Bool)
  | [], cfg, exc, lab => Except.ok (cfg, exc, lab)
  | item :: rest, cfg, exc, lab =>
    match (if item.name = CFG then
             match expect_associated_value item with
             | Except.error msg => Except.error msg
             | Except.ok v => Except.ok (some (decide (v ∈ config)))
           else Except.ok cfg) with
    | Except.error msg => Except.error msg
    | Except.ok cfg2 =>
      check_config_go config rest cfg2
        (if item.name = EXCEPT then true else exc)
        (if item.name = LABEL then true else lab)

/-- `check_config`: evaluate the `cfg=` predicate of an attribute; fatal if
both `label` and `except` are present, or if no `cfg` key is present. -/
def check_config (config : List String) (attr : Attribute) : Except String Bool :=
  match check_config_go config attr.items none false false with
  | Except.error msg => Except.error msg
  | Except.ok (cfg, exc, lab) =>
    if lab && exc then Except.error "must specify only one of: `label`, `except`"
    else
      match cfg with
      | none => Except.error "no cfg attribute"
      | some c => Except.ok c

/-- The loop of `resolve_labels` over the already-split label entries:
unknown labels and repeated labels are fatal. -/
def resolve_labels_go (known : String → Bool) : List String → Labels → Except String Labels
  | [], out => Except.ok out
  | l :: rest, out =>
    if known l then
      if l ∈ out then Except.error ("dep-node label `" ++ l ++ "` is repeated")
      else resolve_labels_go known rest (out ++ [l])
    else Except.error ("dep-node label `" ++ l ++ "` not recognized")

/-- `resolve_labels`: split the associated value at commas, trim, and
resolve every entry against the dep-graph label registry `known`. -/
def resolve_labels (known : String → Bool) (value : String) : Except String Labels :=
  resolve_labels_go known ((value.splitOn ",").map String.trim) []

/-- `DirtyCleanVisitor::labels`: the resolved `label=` list of an
attribute, if that key is present. -/
def labels_find (known : String → Bool) : List MetaItem → Except String (Option Labels)
  | [] => Except.ok none
  | item :: rest =>
    if item.name = LABEL then
      match expect_associated_value item with
      | Except.error msg => Except.error msg
      | Except.ok v =>
        match resolve_labels known v with
        | Except.error msg => Except.error msg
        | Except.ok ls => Except.ok (some ls)
    else labels_find known rest

/-- `DirtyCleanVisitor::except`: the resolved `except=` list of an
attribute; empty when the key is absent. -/
def except_find (known : String → Bool) : List MetaItem → Except String Labels
  | [] => Except.ok []
  | item :: rest =>
    if item.name = EXCEPT then
      match expect_associated_value item with
      | Except.error msg => Except.error msg
      | Except.ok v =>
        match resolve_labels known v with
        | Except.error msg => Except.error msg
        | Except.ok ls => Except.ok ls
    else except_find known rest

/-- The `hir::Item_` variants distinguished by `auto_labels` (variants the
source leaves to the catch-all are collapsed into `ItemOther`). -/
inductive ItemKind where
  | ItemStatic
  | ItemConst
  | ItemFn
  | ItemTy
  | ItemEnum
  | ItemStruct
  | ItemUnion
  | ItemTrait
  | ItemDefaultImpl
  | ItemImpl
  | ItemOther (descr : String)
deriving DecidableEq

/-- The `HirNode` variants distinguished by `auto_labels`. -/
inductive HirNode where
  | NodeItem (k : ItemKind)
  | NodeTraitItem
  | NodeImplItem
  | NodeOther (descr : String)
deriving DecidableEq

/-- `Labels::from_iter` over the flattened label groups (`HashSet`
construction: duplicates collapse). -/
def labels_from_iter (groups : List (List String)) : Labels :=
  groups.flatten.foldl (fun out l => if l ∈ out then out else out ++ [l]) []

/-- `DirtyCleanVisitor::auto_labels`: the name and baseline label set of a
node's declaration kind; fatal for kinds with no defined baseline. -/
def auto_labels (node : HirNode) : Except String (String × Labels) :=
  match node with
  | HirNode.NodeItem k =>
    match k with
    | ItemKind.ItemStatic => Except.ok ("ItemStatic", labels_from_iter LABELS_CONST)
    | ItemKind.ItemConst => Except.ok ("ItemConst", labels_from_iter LABELS_CONST)
    | ItemKind.ItemFn => Except.ok ("ItemFn", labels_from_iter LABELS_FN)
    | ItemKind.ItemTy => Except.ok ("ItemTy", labels_from_iter LABELS_CONST)
    | ItemKind.ItemEnum => Except.ok ("ItemEnum", labels_from_iter LABELS_STRUCT)
    | ItemKind.ItemStruct => Except.ok ("ItemStruct", labels_from_iter LABELS_STRUCT)
    | ItemKind.ItemUnion => Except.ok ("ItemUnion", labels_from_iter LABELS_STRUCT)
    | ItemKind.ItemTrait => Except.ok ("ItemTrait", labels_from_iter LABELS_TRAIT)
    | ItemKind.ItemDefaultImpl => Except.ok ("ItemDefaultImpl", labels_from_iter LABELS_IMPL)
    | ItemKind.ItemImpl => Except.ok ("ItemImpl", labels_from_iter LABELS_IMPL)
    | ItemKind.ItemOther d =>
      Except.error ("clean/dirty auto-assertions not yet defined for NodeItem.node=" ++ d)
  | HirNode.NodeTraitItem => Except.ok ("NodeTraitItem", labels_from_iter LABELS_TRAIT_METHOD)
  | HirNode.NodeImplItem => Except.ok ("NodeImplItem", labels_from_iter LABELS_METHOD)
  | HirNode.NodeOther d =>
    Except.error ("clean/dirty auto-assertions not yet defined for " ++ d)

/-- The requested configuration of one `rustc_clean`/`rustc_dirty`
annotation. -/
structure Assertion where
  clean : Labels
  dirty : Labels
deriving DecidableEq

def Assertion.from_clean_labels (labels : Labels) : Assertion :=
  { clean := labels, dirty := [] }

def Assertion.from_dirty_labels (labels : Labels) : Assertion :=
  { clean := [], dirty := labels }

/-- The `for e in except` loop of `assertion_auto`: remove each `except`
entry from the auto set, fatal when an entry is not present. -/
def remove_all (name : String) : Labels → Labels → Except String Labels
  | auto, [] => Except.ok auto
  | auto, e :: rest =>
    if e ∈ auto then remove_all name (auto.erase e) rest
    else
      Except.error ("`except` specified DepNodes that can not be affected for \"" ++
        name ++ "\": \"" ++ e ++ "\"")

/-- `DirtyCleanVisitor::assertion_auto`: baseline labels of the node's
kind minus the `except` list in the annotation's polarity, the `except`
list in the opposite polarity. -/
def assertion_auto (known : String → Bool) (node : HirNode) (attr : Attribute)
    (is_clean : Bool) : Except String Assertion :=
  match auto_labels node with
  | Except.error msg => Except.error msg
  | Except.ok (name, auto) =>
    match except_find known attr.items with
    | Except.error msg => Except.error msg
    | Except.ok exc =>
      match remove_all name auto exc with
      | Except.error msg => Except.error msg
      | Except.ok auto2 =>
        if is_clean then Except.ok { clean := auto2, dirty := exc }
        else Except.ok { clean := exc, dirty := auto2 }

/-- Body of `assertion_maybe` after polarity is known: check the config
predicate, then use the explicit `label=` list or fall back to the auto
assertion. -/
def assertion_maybe_core (config : List String) (known : String → Bool) (node : HirNode)
    (attr : Attribute) (is_clean : Bool) : Except String (Option Assertion) :=
  match check_config config attr with
  | Except.error msg => Except.error msg
  | Except.ok c =>
    if !c then Except.ok none
    else
      match labels_find known attr.items with
      | Except.error msg => Except.error msg
      | Except.ok (some ls) =>
        Except.ok (some (if is_clean then Assertion.from_clean_labels ls
                         else Assertion.from_dirty_labels ls))
      | Except.ok none =>
        match assertion_auto known node attr is_clean with
        | Except.error msg => Except.error msg
        | Except.ok a => Except.ok (some a)

/-- `DirtyCleanVisitor::assertion_maybe`: `none` when the attribute is not
`rustc_dirty`/`rustc_clean` or its cfg predicate is false. -/
def assertion_maybe (config : List String) (known : String → Bool) (node : HirNode)
    (attr : Attribute) : Except String (Option Assertion) :=
  if attr.name = ATTR_DIRTY then assertion_maybe_core config known node attr false
  else if attr.name = ATTR_CLEAN then assertion_maybe_core config known node attr true
  else Except.ok none

/-- Fingerprints are opaque equality-comparable values. -/
abbrev Fingerprint := Nat

/-- A dep-node reference: a label together with the declaration identity it
is instantiated at (`DepNode::from_label_string(label, def_path_hash)`). -/
structure ArtifactQ where
  label : String
  def_id : Nat
deriving DecidableEq

/-- The dependency-graph engine interface consumed by the checker. -/
structure DepGraph where
  fingerprint_of : ArtifactQ → Fingerprint
  prev_fingerprint_of : ArtifactQ → Option Fingerprint

/-- `DirtyCleanVisitor::dep_nodes`: one dep node per asserted label. -/
def dep_nodes (labels : Labels) (def_id : Nat) : List ArtifactQ :=
  labels.map (fun l => { label := l, def_id := def_id })

/-- `DirtyCleanVisitor::dep_node_str` (display only). -/
def dep_node_str (q : ArtifactQ) : String :=
  q.label ++ "(" ++ toString q.def_id ++ ")"

/-- `DirtyCleanVisitor::assert_dirty`: diagnostic when the current
fingerprint equals a present previous fingerprint. -/
def assert_dirty (g : DepGraph) (q : ArtifactQ) : List String :=
  if some (g.fingerprint_of q) = g.prev_fingerprint_of q then
    ["`" ++ dep_node_str q ++ "` should be dirty but is not"]
  else []

/-- `DirtyCleanVisitor::assert_clean`: diagnostic unless the current
fingerprint equals a present previous fingerprint. -/
def assert_clean (g : DepGraph) (q : ArtifactQ) : List String :=
  if some (g.fingerprint_of q) ≠ g.prev_fingerprint_of q then
    ["`" ++ dep_node_str q ++ "` should be clean but is not"]
  else []

/-- The processing of one attribute in `DirtyCleanVisitor::check_item`:
the fingerprint queries performed and either a fatal error, a skip, or the
emitted diagnostics. -/
structure AttrRun where
  queries : List ArtifactQ
  result : Except String (Option (List String))

/-- One attribute step of `DirtyCleanVisitor::check_item`. -/
def check_attr (config : List String) (known : String → Bool) (g : DepGraph)
    (node : HirNode) (def_id : Nat) (attr : Attribute) : AttrRun :=
  match assertion_maybe config known node attr with
  | Except.error msg => { queries := [], result := Except.error msg }
  | Except.ok none => { queries := [], result := Except.ok none }
  | Except.ok (some a) =>
    let cleanNodes := dep_nodes a.clean def_id
    let dirtyNodes := dep_nodes a.dirty def_id
    { queries := cleanNodes ++ dirtyNodes,
      result := Except.ok (some ((cleanNodes.map (assert_clean g)).flatten ++
                                 (dirtyNodes.map (assert_dirty g)).flatten)) }

/-- `DirtyCleanVisitor::check_item` over the attribute list of one node,
threading the checked-attribute record and the diagnostics. -/
def check_item_go (config : List String) (known : String → Bool) (g : DepGraph)
    (node : HirNode) (def_id : Nat) :
    List Attribute → List Nat → List String → Except String (List Nat × List String)
  | [], checked, diags => Except.ok (checked, diags)
  | attr :: rest, checked, diags =>
    match (check_attr config known g node def_id attr).result with
    | Except.error msg => Except.error msg
    | Except.ok none => check_item_go config known g node def_id rest checked diags
    | Except.ok (some ds) =>
      check_item_go config known g node def_id rest (checked ++ [attr.id]) (diags ++ ds)

/-- One node of the declaration tree: its id (its `DefId` in this model),
its kind, and its attributes. -/
structure Node where
  node_id : Nat
  node : HirNode
  attrs : List Attribute
deriving DecidableEq

/-- Whether `visit_all_item_likes` reaches this node (items, trait items
and impl items). -/
def HirNode.item_like : HirNode → Bool
  | HirNode.NodeItem _ => true
  | HirNode.NodeTraitItem => true
  | HirNode.NodeImplItem => true
  | HirNode.NodeOther _ => false

/-- `krate.visit_all_item_likes(&mut dirty_clean_visitor)`. -/
def visit_items (config : List String) (known : String → Bool) (g : DepGraph) :
    List Node → List Nat → List String → Except String (List Nat × List String)
  | [], checked, diags => Except.ok (checked, diags)
  | n :: rest, checked, diags =>
    if n.node.item_like then
      match check_item_go config known g n.node n.node_id n.attrs checked diags with
      | Except.error msg => Except.error msg
      | Except.ok (c2, d2) => visit_items config known g rest c2 d2
    else visit_items config known g rest checked diags

/-- The loop of `FindAllAttrs::is_active_attr` over the tracked attribute
names. -/
def is_active_attr_go (config : List String) (attr : Attribute) :
    List String → Except String Bool
  | [] => Except.ok false
  | n :: rest =>
    if attr.name = n then
      match check_config config attr with
      | Except.error msg => Except.error msg
      | Except.ok true => Except.ok true
      | Except.ok false => is_active_attr_go config attr rest
    else is_active_attr_go config attr rest

/-- `FindAllAttrs::is_active_attr`. -/
def is_active_attr (config : List String) (names : List String) (attr : Attribute) :
    Except String Bool :=
  is_active_attr_go config attr names

/-- Boolean projection of `is_active_attr` (true only on a non-fatal
positive answer). -/
def is_active_b (config : List String) (names : List String) (attr : Attribute) : Bool :=
  match is_active_attr config names attr with
  | Except.ok true => true
  | _ => false

/-- All attributes of the tree in traversal order (`walk_crate` visits
every attribute of every node). -/
def all_attrs (krate : List Node) : List Attribute :=
  (krate.map Node.attrs).flatten

/-- The collection loop of `FindAllAttrs::visit_attribute`. -/
def find_all_attrs_go (config : List String) (names : List String) :
    List Attribute → List Nat → Except String (List Nat)
  | [], acc => Except.ok acc
  | a :: rest, acc =>
    match is_active_attr config names a with
    | Except.error msg => Except.error msg
    | Except.ok b => find_all_attrs_go config names rest (if b then acc ++ [a.id] else acc)

/-- `intravisit::walk_crate(&mut all_attrs, krate)`: ids of the collected
attributes. -/
def find_all_attrs (config : List String) (names : List String) (krate : List Node) :
    Except String (List Nat) :=
  find_all_attrs_go config names (all_attrs krate) []

/-- `FindAllAttrs::report_unchecked_attrs`: one report per found attribute
whose id was never checked. -/
def report_unchecked_attrs (found : List Nat) (checked : List Nat) : List Nat :=
  found.filter (fun i => decide (i ∉ checked))

/-- Result of the labeled-fingerprint pass: checked attribute ids, found
attribute ids, ids reported as unchecked, and mismatch diagnostics. -/
structure FPassResult where
  checked : List Nat
  found : List Nat
  reports : List Nat
  diags : List String
deriving DecidableEq

/-- `check_dirty_clean_annotations`: gated on the `rustc_attrs` feature;
visitor pass, then the completeness audit. -/
def check_dirty_clean_annotations (rustc_attrs : Bool) (config : List String)
    (known : String → Bool) (g : DepGraph) (krate : List Node) :
    Except String FPassResult :=
  if !rustc_attrs then Except.ok { checked := [], found := [], reports := [], diags := [] }
  else
    match visit_items config known g krate [] [] with
    | Except.error msg => Except.error msg
    | Except.ok (checked, diags) =>
      match find_all_attrs config [ATTR_DIRTY, ATTR_CLEAN] krate with
      | Except.error msg => Except.error msg
      | Except.ok found =>
        Except.ok { checked := checked, found := found,
                    reports := report_unchecked_attrs found checked, diags := diags }

/-- `DirtyCleanMetadataVisitor::assert_state`.  The current hash is read
with unguarded indexing (`self.current_metadata_hashes[&def_id]`); a
missing entry is a panic, modelled as `none`. -/
def assert_state (should_be_clean : Bool) (prev cur : Nat → Option Fingerprint)
    (def_id : Nat) : Option (List String) :=
  let item_path := toString def_id
  match prev def_id with
  | some prev_hash =>
    match cur def_id with
    | none => none
    | some cur_hash =>
      let hashes_are_equal := decide (prev_hash = cur_hash)
      some ((if should_be_clean && !hashes_are_equal then
               ["Metadata hash of `" ++ item_path ++ "` is dirty, but should be clean"]
             else []) ++
            (if !should_be_clean && hashes_are_equal then
               ["Metadata hash of `" ++ item_path ++ "` is clean, but should be dirty"]
             else []))
  | none => some ["Could not find previous metadata hash of `" ++ item_path ++ "`"]

/-- Abnormal terminations of the metadata pass: a fatal diagnostic or a
panic from unguarded map indexing. -/
inductive MetaErr where
  | fatal (msg : String)
  | panicked
deriving DecidableEq

/-- `DirtyCleanMetadataVisitor::check_item` over one node's attributes:
polarity by attribute name, cfg filtering, dedup by attribute id, then
`assert_state`. -/
def meta_check_item_go (config : List String) (prev cur : Nat → Option Fingerprint)
    (def_id : Nat) :
    List Attribute → List Nat → List String → Except MetaErr (List Nat × List String)
  | [], checked, diags => Except.ok (checked, diags)
  | attr :: rest, checked, diags =>
    if attr.name = ATTR_DIRTY_METADATA then
      match check_config config attr with
      | Except.error msg => Except.error (MetaErr.fatal msg)
      | Except.ok c =>
        if c then
          if attr.id ∈ checked then
            meta_check_item_go config prev cur def_id rest checked diags
          else
            match assert_state false prev cur def_id with
            | none => Except.error MetaErr.panicked
            | some ds =>
              meta_check_item_go config prev cur def_id rest (checked ++ [attr.id]) (diags ++ ds)
        else meta_check_item_go config prev cur def_id rest checked diags
    else if attr.name = ATTR_CLEAN_METADATA then
      match check_config config attr with
      | Except.error msg => Except.error (MetaErr.fatal msg)
      | Except.ok c =>
        if c then
          if attr.id ∈ checked then
            meta_check_item_go config prev cur def_id rest checked diags
          else
            match assert_state true prev cur def_id with
            | none => Except.error MetaErr.panicked
            | some ds =>
              meta_check_item_go config prev cur def_id rest (checked ++ [attr.id]) (diags ++ ds)
        else meta_check_item_go config prev cur def_id rest checked diags
    else meta_check_item_go config prev cur def_id rest checked diags

/-- `intravisit::walk_crate(&mut dirty_clean_visitor, krate)` for the
metadata visitor (it checks every node kind of this model). -/
def meta_visit (config : List String) (prev cur : Nat → Option Fingerprint) :
    List Node → List Nat → List String → Except MetaErr (List Nat × List String)
  | [], checked, diags => Except.ok (checked, diags)
  | n :: rest, checked, diags =>
    match meta_check_item_go config prev cur n.node_id n.attrs checked diags with
    | Except.error e => Except.error e
    | Except.ok (c2, d2) => meta_visit config prev cur rest c2 d2

/-- Result of the metadata-hash pass. -/
structure MPassResult where
  checked : List Nat
  found : List Nat
  reports : List Nat
  diags : List String
deriving DecidableEq

/-- `check_dirty_clean_metadata`: gated on the `query_dep_graph` debugging
option; metadata visitor pass, then the completeness audit. -/
def check_dirty_clean_metadata (query_dep_graph : Bool) (config : List String)
    (prev cur : Nat → Option Fingerprint) (krate : List Node) :
    Except MetaErr MPassResult :=
  if !query_dep_graph then Except.ok { checked := [], found := [], reports := [], diags := [] }
  else
    match meta_visit config prev cur krate [] [] with
    | Except.error e => Except.error e
    | Except.ok (checked, diags) =>
      match find_all_attrs config [ATTR_DIRTY_METADATA, ATTR_CLEAN_METADATA] krate with
      | Except.error msg => Except.error (MetaErr.fatal msg)
      | Except.ok found =>
        Except.ok { checked := checked, found := found,
                    reports := report_unchecked_attrs found checked, diags := diags }

/-! ### Helper lemmas about the label-set operations -/

theorem fold_dedup_nodup (l : List String) :
    ∀ acc : List String, acc.Nodup →
      (l.foldl (fun out x => if x ∈ out then out else out ++ [x]) acc).Nodup := by
  induction l with
  | nil => intro acc h; simpa using h
  | cons x xs ih =>
    intro acc h
    simp only [List.foldl_cons]
    by_cases hx : x ∈ acc
    · rw [if_pos hx]; exact ih acc h
    · rw [if_neg hx]
      refine ih _ ?_
      simp only [List.nodup_append, List.nodup_cons, List.not_mem_nil, not_false_iff,
        List.nodup_nil, and_true, true_and]
      refine ⟨h, ?_⟩
      intro a ha hax
      rcases List.mem_singleton.mp hax with rfl
      exact hx ha

theorem labels_from_iter_nodup (groups : List (List String)) :
    (labels_from_iter groups).Nodup :=
  fold_dedup_nodup _ [] List.nodup_nil

theorem auto_labels_nodup (node : HirNode) (nm : String) (L : Labels)
    (h : auto_labels node = Except.ok (nm, L)) : L.Nodup := by
  cases node with
  | NodeItem k =>
    cases k <;>
      simp only [auto_labels, Except.ok.injEq, Prod.mk.injEq, reduceCtorEq] at h <;>
      (obtain ⟨-, h2⟩ := h; subst h2; exact labels_from_iter_nodup _)
  | NodeTraitItem =>
    simp only [auto_labels, Except.ok.injEq, Prod.mk.injEq] at h
    obtain ⟨-, h2⟩ := h; subst h2; exact labels_from_iter_nodup _
  | NodeImplItem =>
    simp only [auto_labels, Except.ok.injEq, Prod.mk.injEq] at h
    obtain ⟨-, h2⟩ := h; subst h2; exact labels_from_iter_nodup _
  | NodeOther d => simp [auto_labels] at h

theorem resolve_labels_go_ok (known : String → Bool) :
    ∀ (ls out r : List String), resolve_labels_go known ls out = Except.ok r →
      r = out ++ ls ∧ (out.Nodup → r.Nodup) ∧ ∀ l ∈ ls, known l = true := by
  intro ls
  induction ls with
  | nil =>
    intro out r h
    simp only [resolve_labels_go, Except.ok.injEq] at h
    subst h
    simp
  | cons l rest ih =>
    intro out r h
    simp only [resolve_labels_go] at h
    by_cases hk : known l
    · rw [if_pos hk] at h
      by_cases hmem : l ∈ out
      · rw [if_pos hmem] at h; exact absurd h (by simp)
      · rw [if_neg hmem] at h
        obtain ⟨h1, h2, h3⟩ := ih (out ++ [l]) r h
        refine ⟨by simpa using h1, ?_, ?_⟩
        · intro hnd
          refine h2 ?_
          simp only [List.nodup_append, List.nodup_cons, List.not_mem_nil, not_false_iff,
            List.nodup_nil, and_true, true_and]
          refine ⟨hnd, ?_⟩
          intro a ha hax
          rcases List.mem_singleton.mp hax with rfl
          exact hmem ha
        · intro x hx
          rcases List.mem_cons.mp hx with rfl | hx'
          · exact hk
          · exact h3 x hx'
    · rw [if_neg hk] at h; exact absurd h (by simp)

theorem resolve_labels_go_error (known : String → Bool) (ls : List String)
    (h : ¬ ls.Nodup ∨ ∃ l ∈ ls, known l = false) :
    ∃ msg, resolve_labels_go known ls [] = Except.error msg := by
  cases hr : resolve_labels_go known ls [] with
  | error msg => exact ⟨msg, rfl⟩
  | ok r =>
    obtain ⟨h1, h2, h3⟩ := resolve_labels_go_ok known ls [] r hr
    exfalso
    rcases h with h | ⟨l, hl, hkl⟩
    · exact h (by simpa [h1] using h2 List.nodup_nil)
    · rw [h3 l hl] at hkl; exact absurd hkl (by simp)

theorem except_find_nodup (known : String → Bool) :
    ∀ (items : List MetaItem) (E : Labels),
      except_find known items = Except.ok E → E.Nodup := by
  intro items
  induction items with
  | nil =>
    intro E h
    simp only [except_find, Except.ok.injEq] at h
    subst h; exact List.nodup_nil
  | cons item rest ih =>
    intro E h
    simp only [except_find] at h
    by_cases hn : item.name = EXCEPT
    · rw [if_pos hn] at h
      cases hv : expect_associated_value item with
      | error msg => simp only [hv] at h; exact absurd h (by simp)
      | ok v =>
        simp only [hv] at h
        cases hr : resolve_labels known v with
        | error msg => simp only [hr] at h; exact absurd h (by simp)
        | ok ls =>
          simp only [hr, Except.ok.injEq] at h
          subst h
          obtain ⟨h1, h2, -⟩ := resolve_labels_go_ok known _ [] ls hr
          exact h2 List.nodup_nil
    · rw [if_neg hn] at h; exact ih E h

theorem remove_all_subset (nm : String) :
    ∀ (E auto r : Labels), remove_all nm auto E = Except.ok r → r ⊆ auto := by
  intro E
  induction E with
  | nil =>
    intro auto r h
    simp only [remove_all, Except.ok.injEq] at h
    subst h; exact fun _ hx => hx
  | cons e rest ih =>
    intro auto r h
    simp only [remove_all] at h
    by_cases he : e ∈ auto
    · rw [if_pos he] at h
      exact fun x hx => List.erase_subset _ _ (ih (auto.erase e) r h hx)
    · rw [if_neg he] at h; exact absurd h (by simp)

theorem remove_all_ok (nm : String) :
    ∀ (E auto : Labels), auto.Nodup → E.Nodup → (∀ e ∈ E, e ∈ auto) →
      ∃ r, remove_all nm auto E = Except.ok r ∧ (∀ l, l ∈ r ↔ (l ∈ auto ∧ l ∉ E)) := by
  intro E
  induction E with
  | nil =>
    intro auto _ _ _
    exact ⟨auto, rfl, by simp⟩
  | cons e rest ih =>
    intro auto hand hEnd hsub
    have he : e ∈ auto := hsub e (List.mem_cons_self e rest)
    have hEnd' : rest.Nodup := (List.nodup_cons.mp hEnd).2
    have henr : e ∉ rest := (List.nodup_cons.mp hEnd).1
    have hsub' : ∀ x ∈ rest, x ∈ auto.erase e := by
      intro x hx
      have hxa : x ∈ auto := hsub x (List.mem_cons_of_mem e hx)
      have hxe : x ≠ e := by rintro rfl; exact henr hx
      exact (List.Nodup.mem_erase_iff hand).mpr ⟨hxe, hxa⟩
    obtain ⟨r, hr, hmem⟩ := ih (auto.erase e) (hand.erase e) hEnd' hsub'
    refine ⟨r, ?_, ?_⟩
    · simp only [remove_all, if_pos he]; exact hr
    · intro l
      rw [hmem l, List.Nodup.mem_erase_iff hand]
      constructor
      · rintro ⟨⟨hle, hla⟩, hlr⟩
        exact ⟨hla, by simp [hle, hlr]⟩
      · rintro ⟨hla, hlne⟩
        simp only [List.mem_cons, not_or] at hlne
        exact ⟨⟨hlne.1, hla⟩, hlne.2⟩

theorem remove_all_error (nm : String) :
    ∀ (E auto : Labels), (∃ e ∈ E, e ∉ auto) →
      ∃ msg, remove_all nm auto E = Except.error msg := by
  intro E
  induction E with
  | nil => rintro auto ⟨e, he, -⟩; exact absurd he (by simp)
  | cons e rest ih =>
    rintro auto ⟨e0, he0, he0a⟩
    by_cases he : e ∈ auto
    · rcases List.mem_cons.mp he0 with rfl | he0r
      · exact absurd he he0a
      · obtain ⟨msg, hmsg⟩ := ih (auto.erase e)
          ⟨e0, he0r, fun hc => he0a (List.mem_of_mem_erase hc)⟩
        exact ⟨msg, by simp only [remove_all, if_pos he]; exact hmsg⟩
    · exact ⟨"`except` specified DepNodes that can not be affected for \"" ++ nm ++
        "\": \"" ++ e ++ "\"", by simp only [remove_all, if_neg he]⟩

theorem remove_all_not_removed (nm : String) :
    ∀ (E auto r : Labels), remove_all nm auto E = Except.ok r → auto.Nodup →
      ∀ l ∈ r, l ∉ E := by
  intro E
  induction E with
  | nil => intro auto r _ _ l _; simp
  | cons e rest ih =>
    intro auto r h hand l hl
    simp only [remove_all] at h
    by_cases he : e ∈ auto
    · rw [if_pos he] at h
      have hlrest : l ∉ rest := ih (auto.erase e) r h (hand.erase e) l hl
      have hlsub : l ∈ auto.erase e := remove_all_subset nm rest (auto.erase e) r h hl
      have hlne : l ≠ e := ((List.Nodup.mem_erase_iff hand).mp hlsub).1
      simp [hlne, hlrest]
    · rw [if_neg he] at h; exact absurd h (by simp)

/-! ### The `check_config` loop -/

theorem check_config_go_flags (config : List String) :
    ∀ (items : List MetaItem) (cfg : Option Bool) (exc lab : Bool),
      (∃ msg, check_config_go config items cfg exc lab = Except.error msg) ∨
      (∃ c e l, check_config_go config items cfg exc lab = Except.ok (c, e, l) ∧
        ((exc = true ∨ ∃ it ∈ items, it.name = EXCEPT) → e = true) ∧
        ((lab = true ∨ ∃ it ∈ items, it.name = LABEL) → l = true)) := by
  intro items
  induction items with
  | nil =>
    intro cfg exc lab
    right
    refine ⟨cfg, exc, lab, rfl, ?_, ?_⟩
    · rintro (h | ⟨it, hit, -⟩)
      · exact h
      · exact absurd hit (by simp)
    · rintro (h | ⟨it, hit, -⟩)
      · exact h
      · exact absurd hit (by simp)
  | cons item rest ih =>
    intro cfg exc lab
    by_cases hn : item.name = CFG
    · cases hv : expect_associated_value item with
      | error msg =>
        left
        exact ⟨msg, by simp only [check_config_go, if_pos hn, hv]⟩
      | ok v =>
        rcases ih (some (decide (v ∈ config)))
            (if item.name = EXCEPT then true else exc)
            (if item.name = LABEL then true else lab) with ⟨msg, hmsg⟩ | ⟨c, e, l, hok, hE, hL⟩
        · left
          exact ⟨msg, by simp only [check_config_go, if_pos hn, hv]; exact hmsg⟩
        · right
          refine ⟨c, e, l, by simp only [check_config_go, if_pos hn, hv]; exact hok, ?_, ?_⟩
          · rintro (h | ⟨it, hit, hname⟩)
            · refine hE (Or.inl ?_); simp [h]
            · rcases List.mem_cons.mp hit with rfl | hit'
              · refine hE (Or.inl ?_); simp [hname]
              · exact hE (Or.inr ⟨it, hit', hname⟩)
          · rintro (h | ⟨it, hit, hname⟩)
            · refine hL (Or.inl ?_); simp [h]
            · rcases List.mem_cons.mp hit with rfl | hit'
              · refine hL (Or.inl ?_); simp [hname]
              · exact hL (Or.inr ⟨it, hit', hname⟩)
    · rcases ih cfg
          (if item.name = EXCEPT then true else exc)
          (if item.name = LABEL then true else lab) with ⟨msg, hmsg⟩ | ⟨c, e, l, hok, hE, hL⟩
      · left
        exact ⟨msg, by simp only [check_config_go, if_neg hn]; exact hmsg⟩
      · right
        refine ⟨c, e, l, by simp only [check_config_go, if_neg hn]; exact hok, ?_, ?_⟩
        · rintro (h | ⟨it, hit, hname⟩)
          · refine hE (Or.inl ?_); simp [h]
          · rcases List.mem_cons.mp hit with rfl | hit'
            · refine hE (Or.inl ?_); simp [hname]
            · exact hE (Or.inr ⟨it, hit', hname⟩)
        · rintro (h | ⟨it, hit, hname⟩)
          · refine hL (Or.inl ?_); simp [h]
          · rcases List.mem_cons.mp hit with rfl | hit'
            · refine hL (Or.inl ?_); simp [hname]
            · exact hL (Or.inr ⟨it, hit', hname⟩)

theorem check_config_both_fatal (config : List String) (attr : Attribute)
    (hl : ∃ it ∈ attr.items, it.name = LABEL)
    (he : ∃ it ∈ attr.items, it.name = EXCEPT) :
    ∃ msg, check_config config attr = Except.error msg := by
  rcases check_config_go_flags config attr.items none false false with
    ⟨msg, hmsg⟩ | ⟨c, e, l, hok, hE, hL⟩
  · exact ⟨msg, by simp only [check_config, hmsg]⟩
  · have he' : e = true := hE (Or.inr he)
    have hl' : l = true := hL (Or.inr hl)
    subst he'; subst hl'
    have hcc : check_config config attr =
        Except.error "must specify only one of: `label`, `except`" := by
      unfold check_config
      rw [hok]
      simp
    exact ⟨_, hcc⟩

/-! ### The completeness auditor's collection predicate -/

theorem is_active_attr_go_true_iff (config : List String) (attr : Attribute) :
    ∀ names : List String, is_active_attr_go config attr names = Except.ok true ↔
      (attr.name ∈ names ∧ check_config config attr = Except.ok true) := by
  intro names
  induction names with
  | nil => simp [is_active_attr_go]
  | cons n rest ih =>
    by_cases hn : attr.name = n
    · simp only [is_active_attr_go, if_pos hn]
      cases hcc : check_config config attr with
      | error msg => simp [hcc, hn]
      | ok b =>
        cases b
        · rw [ih]
          simp only [hcc, Except.ok.injEq, List.mem_cons]
          constructor
          · rintro ⟨-, h⟩; exact absurd h (by simp)
          · rintro ⟨-, h⟩; exact absurd h (by simp)
        · simp [hcc, hn]
    · simp only [is_active_attr_go, if_neg hn]
      rw [ih]
      simp only [List.mem_cons]
      constructor
      · rintro ⟨h1, h2⟩; exact ⟨Or.inr h1, h2⟩
      · rintro ⟨h1 | h1, h2⟩
        · exact absurd h1 hn
        · exact ⟨h1, h2⟩

theorem is_active_b_true_iff (config : List String) (names : List String) (attr : Attribute) :
    is_active_b config names attr = true ↔
      (attr.name ∈ names ∧ check_config config attr = Except.ok true) := by
  rw [← is_active_attr_go_true_iff config attr names]
  unfold is_active_b is_active_attr
  cases h : is_active_attr_go config attr names with
  | error msg => simp [h]
  | ok b => cases b <;> simp [h]

theorem find_all_attrs_go_ok (config : List String) (names : List String) :
    ∀ (attrs : List Attribute) (acc out : List Nat),
      find_all_attrs_go config names attrs acc = Except.ok out →
      out = acc ++ (attrs.filter (fun a => is_active_b config names a)).map Attribute.id := by
  intro attrs
  induction attrs with
  | nil =>
    intro acc out h
    simp only [find_all_attrs_go, Except.ok.injEq] at h
    subst h; simp
  | cons a rest ih =>
    intro acc out h
    simp only [find_all_attrs_go] at h
    cases hia : is_active_attr config names a with
    | error msg => simp only [hia] at h; exact absurd h (by simp)
    | ok b =>
      simp only [hia] at h
      have hb : is_active_b config names a = b := by
        unfold is_active_b; rw [hia]; cases b <;> rfl
      cases b
      · rw [if_neg (by simp)] at h
        rw [ih acc out h, List.filter_cons_of_neg (by simp [hb])]
      · rw [if_pos rfl] at h
        rw [ih (acc ++ [a.id]) out h, List.filter_cons_of_pos (by simp [hb])]
        simp

theorem count_filter_of_pos {α : Type} [DecidableEq α] (p : α → Bool) (a : α)
    (hp : p a = true) : ∀ l : List α, (l.filter p).count a = l.count a := by
  intro l
  induction l with
  | nil => simp
  | cons x xs ih =>
    by_cases hx : p x
    · rw [List.filter_cons_of_pos hx]
      by_cases hxa : x = a
      · subst hxa; simp [List.count_cons_self, ih]
      · have hax : a ≠ x := fun hh => hxa hh.symm
        simp [List.count_cons_of_ne hax, ih]
    · rw [List.filter_cons_of_neg hx]
      have hax : a ≠ x := by rintro rfl; exact hx hp
      simp [List.count_cons_of_ne hax, ih]

/-! ### Concrete instances used by the witnesses and counterexamples -/

def knownTrue : String → Bool := fun _ => true

def gNone : DepGraph :=
  { fingerprint_of := fun _ => 0, prev_fingerprint_of := fun _ => none }

def gOK : DepGraph :=
  { fingerprint_of := fun _ => 0, prev_fingerprint_of := fun _ => some 0 }

def qHir : ArtifactQ := { label := "Hir", def_id := 0 }

def attr_cfg_off : Attribute :=
  { id := 0, name := ATTR_DIRTY, items := [{ name := CFG, value := some "rev2" }] }

def krate_cfg_off : List Node :=
  [{ node_id := 0, node := HirNode.NodeItem ItemKind.ItemFn, attrs := [attr_cfg_off] }]

def attr_cfg_on : Attribute :=
  { id := 2, name := ATTR_CLEAN, items := [{ name := CFG, value := some "rev2" }] }

def node_cfg_on : Node :=
  { node_id := 0, node := HirNode.NodeItem ItemKind.ItemFn, attrs := [attr_cfg_on] }

def krate_cfg_on : List Node := [node_cfg_on]

def attr_both : Attribute :=
  { id := 7, name := ATTR_DIRTY,
    items := [{ name := CFG, value := some "rev2" },
              { name := LABEL, value := some "Hir" },
              { name := EXCEPT, value := some "HirBody" }] }

def prev_none : Nat → Option Fingerprint := fun _ => none

def prev_one : Nat → Option Fingerprint := fun _ => some 1

def cur_none : Nat → Option Fingerprint := fun _ => none

/-! ### Claim theorems -/

/-- C2: for every artifact, the clean-set check emits no diagnostic iff a
previous fingerprint exists and equals the current one, and the dirty-set
check emits no diagnostic iff no such equality holds; in particular an
absent previous fingerprint passes a dirty assertion and fails a clean
assertion. -/
theorem assert_fingerprint_spec (g : DepGraph) (q : ArtifactQ) :
    (assert_clean g q = [] ↔ g.prev_fingerprint_of q = some (g.fingerprint_of q)) ∧
    (assert_dirty g q = [] ↔ g.prev_fingerprint_of q ≠ some (g.fingerprint_of q)) ∧
    (g.prev_fingerprint_of q = none → (assert_dirty g q = [] ∧ assert_clean g q ≠ [])) := by
  refine ⟨?_, ?_, ?_⟩
  · unfold assert_clean
    by_cases h : some (g.fingerprint_of q) = g.prev_fingerprint_of q
    · rw [if_neg (not_not_intro h)]
      exact iff_of_true rfl h.symm
    · rw [if_pos h]
      exact iff_of_false (by simp) (fun hh => h hh.symm)
  · unfold assert_dirty
    by_cases h : some (g.fingerprint_of q) = g.prev_fingerprint_of q
    · rw [if_pos h]
      exact iff_of_false (by simp) (not_not_intro h.symm)
    · rw [if_neg h]
      exact iff_of_true rfl (fun hh => h hh.symm)
  · intro hp
    constructor
    · unfold assert_dirty
      rw [hp, if_neg (by simp)]
    · unfold assert_clean
      rw [hp, if_pos (by simp)]
      simp

theorem assert_fingerprint_spec_witness :
    assert_dirty gNone qHir = [] ∧ assert_clean gNone qHir ≠ [] :=
  (assert_fingerprint_spec gNone qHir).2.2 rfl

/-- C4: a clean-metadata assertion reports no error iff the previous hash
exists and equals the current one; a dirty-metadata assertion reports no
error iff both hashes exist and differ; an absent previous hash reports
exactly one missing-hash error regardless of polarity. -/
theorem assert_state_spec (prev cur : Nat → Option Fingerprint) (d : Nat) :
    (assert_state true prev cur d = some [] ↔ ∃ h, prev d = some h ∧ cur d = some h) ∧
    (assert_state false prev cur d = some [] ↔
      ∃ h h2, prev d = some h ∧ cur d = some h2 ∧ h ≠ h2) ∧
    (prev d = none →
      assert_state true prev cur d =
        some ["Could not find previous metadata hash of `" ++ toString d ++ "`"] ∧
      assert_state false prev cur d =
        some ["Could not find previous metadata hash of `" ++ toString d ++ "`"]) := by
  cases hp : prev d with
  | none => simp [assert_state, hp]
  | some ph =>
    cases hc : cur d with
    | none => simp [assert_state, hp, hc]
    | some ch =>
      by_cases heq : ph = ch
      · subst heq
        simp [assert_state, hp, hc]
      · simp [assert_state, hp, hc, heq, Ne.symm heq]

theorem assert_state_spec_witness :
    assert_state true prev_none cur_none 0 =
      some ["Could not find previous metadata hash of `" ++ toString (0 : Nat) ++ "`"] ∧
    assert_state false prev_none cur_none 0 =
      some ["Could not find previous metadata hash of `" ++ toString (0 : Nat) ++ "`"] :=
  (assert_state_spec prev_none cur_none 0).2.2 rfl

/-- C9: when a declaration has a previous metadata hash but no current
one, `assert_state` panics (unguarded indexing, modelled as `none`); the
evaluation is total whenever every declaration with a previous hash also
has a current hash. -/
theorem assert_state_panic_spec (b : Bool) (prev cur : Nat → Option Fingerprint) (d : Nat) :
    ((∃ h, prev d = some h) → cur d = none → assert_state b prev cur d = none) ∧
    (((prev d).isSome → (cur d).isSome) → (assert_state b prev cur d).isSome) := by
  constructor
  · rintro ⟨h, hp⟩ hc
    simp [assert_state, hp, hc]
  · intro htot
    cases hp : prev d with
    | none => simp [assert_state, hp]
    | some ph =>
      have hs : (cur d).isSome := htot (by simp [hp])
      cases hc : cur d with
      | none => rw [hc] at hs; exact absurd hs (by simp)
      | some ch => simp [assert_state, hp, hc]

theorem assert_state_panic_spec_witness :
    assert_state true prev_one cur_none 0 = none :=
  (assert_state_panic_spec true prev_one cur_none 0).1 ⟨1, rfl⟩ rfl

/-- C10: with its gating flag off, each top-level pass returns immediately
with nothing checked, nothing found, nothing reported and no diagnostics,
for every crate and every environment. -/
theorem gating_spec (config : List String) (known : String → Bool) (g : DepGraph)
    (prev cur : Nat → Option Fingerprint) (krate : List Node) :
    check_dirty_clean_annotations false config known g krate =
      Except.ok { checked := [], found := [], reports := [], diags := [] } ∧
    check_dirty_clean_metadata false config prev cur krate =
      Except.ok { checked := [], found := [], reports := [], diags := [] } :=
  ⟨rfl, rfl⟩

/-- C6: an annotation carrying both a `label=` and an `except=` key fails
fatally, before any label resolution (the result does not depend on the
label registry) and before any fingerprint lookup (the query trace is
empty and the result does not depend on the dependency graph). -/
theorem both_keys_fatal (config : List String) (node : HirNode) (def_id : Nat)
    (attr : Attribute)
    (hname : attr.name = ATTR_DIRTY ∨ attr.name = ATTR_CLEAN)
    (hl : ∃ it ∈ attr.items, it.name = LABEL)
    (he : ∃ it ∈ attr.items, it.name = EXCEPT) :
    ∃ msg, ∀ (known : String → Bool) (g : DepGraph),
      check_attr config known g node def_id attr =
        { queries := [], result := Except.error msg } := by
  obtain ⟨msg, hcc⟩ := check_config_both_fatal config attr hl he
  refine ⟨msg, fun known g => ?_⟩
  have hmaybe : assertion_maybe config known node attr = Except.error msg := by
    unfold assertion_maybe
    rcases hname with h | h
    · rw [if_pos h]
      unfold assertion_maybe_core
      rw [hcc]
    · rw [if_neg (by rw [h]; decide), if_pos h]
      unfold assertion_maybe_core
      rw [hcc]
  unfold check_attr
  rw [hmaybe]

theorem both_keys_fatal_witness :
    ∃ msg, ∀ (known : String → Bool) (g : DepGraph),
      check_attr [] known g (HirNode.NodeItem ItemKind.ItemFn) 0 attr_both =
        { queries := [], result := Except.error msg } :=
  both_keys_fatal [] (HirNode.NodeItem ItemKind.ItemFn) 0 attr_both (Or.inl rfl)
    ⟨{ name := LABEL, value := some "Hir" }, by simp [attr_both], rfl⟩
    ⟨{ name := EXCEPT, value := some "HirBody" }, by simp [attr_both], rfl⟩

/-- C7: resolving a label list fails fatally whenever the list repeats an
entry or contains a label unknown to the registry; on success the
resolved set is exactly the given list, never silently deduplicated and
never silently shortened. -/
theorem resolve_labels_spec (known : String → Bool) (ls : List String) :
    ((¬ ls.Nodup ∨ ∃ l ∈ ls, known l = false) →
      ∃ msg, resolve_labels_go known ls [] = Except.error msg) ∧
    (∀ out, resolve_labels_go known ls [] = Except.ok out →
      (out = ls ∧ ls.Nodup ∧ ∀ l ∈ ls, known l = true)) ∧
    (∀ value, resolve_labels known value =
      resolve_labels_go known ((value.splitOn ",").map String.trim) []) := by
  refine ⟨resolve_labels_go_error known ls, ?_, fun _ => rfl⟩
  intro out h
  obtain ⟨h1, h2, h3⟩ := resolve_labels_go_ok known ls [] out h
  have hout : out = ls := by simpa using h1
  subst hout
  exact ⟨rfl, h2 List.nodup_nil, h3⟩

theorem resolve_labels_spec_witness :
    ∃ msg, resolve_labels_go knownTrue ["Hir", "Hir"] [] = Except.error msg :=
  (resolve_labels_spec knownTrue ["Hir", "Hir"]).1 (Or.inl (by decide))

theorem assertion_auto_disjoint (known : String → Bool) (node : HirNode)
    (attr : Attribute) (ic : Bool) (a : Assertion)
    (h : assertion_auto known node attr ic = Except.ok a) :
    ∀ l, ¬ (l ∈ a.clean ∧ l ∈ a.dirty) := by
  unfold assertion_auto at h
  cases hal : auto_labels node with
  | error msg => simp only [hal] at h; exact absurd h (by simp)
  | ok p =>
    obtain ⟨nm, auto⟩ := p
    simp only [hal] at h
    cases hex : except_find known attr.items with
    | error msg => simp only [hex] at h; exact absurd h (by simp)
    | ok exc =>
      simp only [hex] at h
      cases hra : remove_all nm auto exc with
      | error msg => simp only [hra] at h; exact absurd h (by simp)
      | ok auto2 =>
        simp only [hra] at h
        have hnd : auto.Nodup := auto_labels_nodup node nm auto hal
        have hdis := remove_all_not_removed nm exc auto auto2 hra hnd
        cases ic
        · rw [if_neg (by decide)] at h
          simp only [Except.ok.injEq] at h
          subst h
          rintro l ⟨h1, h2⟩
          exact hdis l h2 h1
        · rw [if_pos rfl] at h
          simp only [Except.ok.injEq] at h
          subst h
          rintro l ⟨h1, h2⟩
          exact hdis l h1 h2

theorem assertion_maybe_core_disjoint (config : List String) (known : String → Bool)
    (node : HirNode) (attr : Attribute) (ic : Bool) (a : Assertion)
    (h : assertion_maybe_core config known node attr ic = Except.ok (some a)) :
    ∀ l, ¬ (l ∈ a.clean ∧ l ∈ a.dirty) := by
  unfold assertion_maybe_core at h
  cases hcc : check_config config attr with
  | error msg => simp only [hcc] at h; exact absurd h (by simp)
  | ok c =>
    simp only [hcc] at h
    cases c
    · simp at h
    · rw [if_neg (by decide)] at h
      cases hlf : labels_find known attr.items with
      | error msg => simp only [hlf] at h; exact absurd h (by simp)
      | ok o =>
        cases o with
        | some ls =>
          simp only [hlf, Except.ok.injEq, Option.some.injEq] at h
          subst h
          cases ic
          · rw [if_neg (by decide)]
            rintro l ⟨h1, h2⟩
            simp [Assertion.from_dirty_labels] at h1
          · rw [if_pos rfl]
            rintro l ⟨h1, h2⟩
            simp [Assertion.from_clean_labels] at h2
        | none =>
          simp only [hlf] at h
          cases haa : assertion_auto known node attr ic with
          | error msg => simp only [haa] at h; exact absurd h (by simp)
          | ok a2 =>
            simp only [haa, Except.ok.injEq, Option.some.injEq] at h
            subst h
            exact assertion_auto_disjoint known node attr ic a2 haa

/-- C8: every assertion produced by the annotation resolver — explicit
`label=` lists and auto-derived baselines alike — has disjoint clean and
dirty sets. -/
theorem assertion_disjoint (config : List String) (known : String → Bool)
    (node : HirNode) (attr : Attribute) (a : Assertion)
    (h : assertion_maybe config known node attr = Except.ok (some a)) :
    ∀ l, ¬ (l ∈ a.clean ∧ l ∈ a.dirty) := by
  unfold assertion_maybe at h
  by_cases h1 : attr.name = ATTR_DIRTY
  · rw [if_pos h1] at h
    exact assertion_maybe_core_disjoint config known node attr false a h
  · rw [if_neg h1] at h
    by_cases h2 : attr.name = ATTR_CLEAN
    · rw [if_pos h2] at h
      exact assertion_maybe_core_disjoint config known node attr true a h
    · rw [if_neg h2] at h
      exact absurd h (by simp)

theorem assertion_disjoint_witness :
    ¬ ("Hir" ∈ (Assertion.mk (labels_from_iter LABELS_FN) []).clean ∧
       "Hir" ∈ (Assertion.mk (labels_from_iter LABELS_FN) []).dirty) :=
  assertion_disjoint ["rev2"] knownTrue (HirNode.NodeItem ItemKind.ItemFn) attr_cfg_on
    { clean := labels_from_iter LABELS_FN, dirty := [] } rfl "Hir"

/-- C1: for a declaration kind with defined baseline L and a resolved
`except` list E, auto-derivation fails fatally when E has an entry outside
L; when E is contained in L the assertion's same-polarity set is exactly
L minus E, the opposite-polarity set is exactly E, and the two sets
partition L. -/
theorem assertion_auto_partition (known : String → Bool) (node : HirNode)
    (attr : Attribute) (ic : Bool) (nm : String) (L E : Labels)
    (hL : auto_labels node = Except.ok (nm, L))
    (hE : except_find known attr.items = Except.ok E) :
    ((∃ e ∈ E, e ∉ L) → ∃ msg, assertion_auto known node attr ic = Except.error msg) ∧
    ((∀ e ∈ E, e ∈ L) → ∃ a, assertion_auto known node attr ic = Except.ok a ∧
      (if ic then a.dirty else a.clean) = E ∧
      (∀ l, l ∈ (if ic then a.clean else a.dirty) ↔ (l ∈ L ∧ l ∉ E)) ∧
      (∀ l, l ∈ L ↔ (l ∈ a.clean ∨ l ∈ a.dirty)) ∧
      (∀ l, ¬ (l ∈ a.clean ∧ l ∈ a.dirty))) := by
  have hLnd : L.Nodup := auto_labels_nodup node nm L hL
  have hEnd : E.Nodup := except_find_nodup known attr.items E hE
  constructor
  · intro hbad
    obtain ⟨msg, hmsg⟩ := remove_all_error nm E L hbad
    refine ⟨msg, ?_⟩
    unfold assertion_auto
    simp only [hL, hE, hmsg]
  · intro hsub
    obtain ⟨r, hr, hmem⟩ := remove_all_ok nm E L hLnd hEnd hsub
    have hdisj : ∀ l ∈ r, l ∉ E := fun l hl => ((hmem l).mp hl).2
    cases ic
    · refine ⟨{ clean := E, dirty := r }, ?_, rfl, hmem, ?_, ?_⟩
      · unfold assertion_auto
        simp only [hL, hE, hr]
        rw [if_neg (by decide)]
      · intro l
        constructor
        · intro hlL
          by_cases hlE : l ∈ E
          · exact Or.inl hlE
          · exact Or.inr ((hmem l).mpr ⟨hlL, hlE⟩)
        · rintro (hlE | hlr)
          · exact hsub l hlE
          · exact ((hmem l).mp hlr).1
      · rintro l ⟨h1, h2⟩
        exact hdisj l h2 h1
    · refine ⟨{ clean := r, dirty := E }, ?_, rfl, hmem, ?_, ?_⟩
      · unfold assertion_auto
        simp only [hL, hE, hr]
        rw [if_pos trivial]
      · intro l
        constructor
        · intro hlL
          by_cases hlE : l ∈ E
          · exact Or.inr hlE
          · exact Or.inl ((hmem l).mpr ⟨hlL, hlE⟩)
        · rintro (hlr | hlE)
          · exact ((hmem l).mp hlr).1
          · exact hsub l hlE
      · rintro l ⟨h1, h2⟩
        exact hdisj l h1 h2

theorem assertion_auto_partition_witness :
    ∃ a, assertion_auto knownTrue (HirNode.NodeItem ItemKind.ItemFn) attr_cfg_on true =
        Except.ok a ∧
      (if true then a.dirty else a.clean) = ([] : Labels) ∧
      (∀ l, l ∈ (if true then a.clean else a.dirty) ↔
        (l ∈ labels_from_iter LABELS_FN ∧ l ∉ ([] : Labels))) ∧
      (∀ l, l ∈ labels_from_iter LABELS_FN ↔ (l ∈ a.clean ∨ l ∈ a.dirty)) ∧
      (∀ l, ¬ (l ∈ a.clean ∧ l ∈ a.dirty)) :=
  (assertion_auto_partition knownTrue (HirNode.NodeItem ItemKind.ItemFn) attr_cfg_on true
    "ItemFn" (labels_from_iter LABELS_FN) [] rfl rfl).2 (by simp)

/-- C3 counterexample: a syntactically present attribute of a tracked kind
whose cfg predicate is currently false is not collected by the
completeness auditor's scan, contradicting the claim that cfg filtering is
ignored. -/
theorem find_all_skips_cfg_off :
    attr_cfg_off.name = ATTR_DIRTY ∧
    attr_cfg_off ∈ all_attrs krate_cfg_off ∧
    check_config [] attr_cfg_off = Except.ok false ∧
    find_all_attrs [] [ATTR_DIRTY, ATTR_CLEAN] krate_cfg_off = Except.ok [] :=
  ⟨rfl, by simp [all_attrs, krate_cfg_off], rfl, rfl⟩

/-- C3 (amended): the auditor's scan collects an annotation instance iff
its name matches a tracked kind and its cfg predicate is currently true. -/
theorem find_all_collects_iff (config names : List String) (krate : List Node)
    (found : List Nat) (attr : Attribute)
    (hrun : find_all_attrs config names krate = Except.ok found)
    (hmem : attr ∈ all_attrs krate)
    (hnodup : ((all_attrs krate).map Attribute.id).Nodup) :
    (attr.id ∈ found ↔ (attr.name ∈ names ∧ check_config config attr = Except.ok true)) := by
  have hchar := find_all_attrs_go_ok config names (all_attrs krate) [] found hrun
  simp only [List.nil_append] at hchar
  subst hchar
  constructor
  · intro hid
    obtain ⟨a2, ha2f, ha2id⟩ := List.mem_map.mp hid
    have ha2 : a2 ∈ all_attrs krate := List.mem_of_mem_filter ha2f
    have hact : is_active_b config names a2 = true := List.of_mem_filter ha2f
    have heq : a2 = attr := List.inj_on_of_nodup_map hnodup ha2 hmem ha2id
    subst heq
    exact (is_active_b_true_iff config names a2).mp hact
  · intro hcond
    have hact : is_active_b config names attr = true :=
      (is_active_b_true_iff config names attr).mpr hcond
    exact List.mem_map.mpr ⟨attr, List.mem_filter.mpr ⟨hmem, hact⟩, rfl⟩

theorem find_all_collects_iff_witness :
    attr_cfg_on.id ∈ [2] ↔
      (attr_cfg_on.name ∈ [ATTR_DIRTY, ATTR_CLEAN] ∧
        check_config ["rev2"] attr_cfg_on = Except.ok true) :=
  find_all_collects_iff ["rev2"] [ATTR_DIRTY, ATTR_CLEAN] krate_cfg_on [2] attr_cfg_on
    rfl (by simp [all_attrs, krate_cfg_on, node_cfg_on]) (by decide)

/-- C5 counterexample: a tracked-kind attribute whose cfg predicate is
false is neither recorded as evaluated nor reported as unchecked by a full
run of the labeled-fingerprint pass — the claimed dichotomy fails for it. -/
theorem pass_skips_cfg_off :
    attr_cfg_off.name = ATTR_DIRTY ∧
    attr_cfg_off ∈ all_attrs krate_cfg_off ∧
    check_dirty_clean_annotations true [] knownTrue gNone krate_cfg_off =
      Except.ok { checked := [], found := [], reports := [], diags := [] } :=
  ⟨rfl, by simp [all_attrs, krate_cfg_off], rfl⟩

/-- C5 (amended): when the labeled-fingerprint pass completes without a
fatal error, every tree attribute of a tracked kind whose cfg predicate is
true is either recorded as checked (and reported zero times) or reported
exactly once as unchecked. -/
theorem checked_xor_reported (config : List String) (known : String → Bool) (g : DepGraph)
    (krate : List Node) (res : FPassResult) (n : Node) (attr : Attribute)
    (hrun : check_dirty_clean_annotations true config known g krate = Except.ok res)
    (hn : n ∈ krate) (ha : attr ∈ n.attrs)
    (hname : attr.name = ATTR_DIRTY ∨ attr.name = ATTR_CLEAN)
    (hcfg : check_config config attr = Except.ok true)
    (hnodup : ((all_attrs krate).map Attribute.id).Nodup) :
    (attr.id ∈ res.checked ∧ res.reports.count attr.id = 0) ∨
    (attr.id ∉ res.checked ∧ res.reports.count attr.id = 1) := by
  unfold check_dirty_clean_annotations at hrun
  rw [if_neg (by decide)] at hrun
  cases hv : visit_items config known g krate [] [] with
  | error msg => simp only [hv] at hrun; exact absurd hrun (by simp)
  | ok st =>
    obtain ⟨checked, diags⟩ := st
    simp only [hv] at hrun
    cases hf : find_all_attrs config [ATTR_DIRTY, ATTR_CLEAN] krate with
    | error msg => simp only [hf] at hrun; exact absurd hrun (by simp)
    | ok found =>
      simp only [hf, Except.ok.injEq] at hrun
      subst hrun
      have hmemall : attr ∈ all_attrs krate := by
        unfold all_attrs
        exact List.mem_flatten.mpr ⟨n.attrs, List.mem_map.mpr ⟨n, hn, rfl⟩, ha⟩
      have hnamemem : attr.name ∈ [ATTR_DIRTY, ATTR_CLEAN] := by
        rcases hname with h | h <;> simp [h]
      have hact : is_active_b config [ATTR_DIRTY, ATTR_CLEAN] attr = true :=
        (is_active_b_true_iff config [ATTR_DIRTY, ATTR_CLEAN] attr).mpr ⟨hnamemem, hcfg⟩
      have hchar := find_all_attrs_go_ok config [ATTR_DIRTY, ATTR_CLEAN]
        (all_attrs krate) [] found hf
      simp only [List.nil_append] at hchar
      have hidf : attr.id ∈ found := by
        rw [hchar]
        exact List.mem_map.mpr ⟨attr, List.mem_filter.mpr ⟨hmemall, hact⟩, rfl⟩
      have hfnd : found.Nodup := by
        rw [hchar]
        exact List.Nodup.sublist
          (List.Sublist.map Attribute.id (List.filter_sublist (all_attrs krate))) hnodup
      have hcount1 : found.count attr.id = 1 := List.count_eq_one_of_mem hfnd hidf
      by_cases hc : attr.id ∈ checked
      · left
        refine ⟨hc, ?_⟩
        rw [List.count_eq_zero]
        intro hrep
        have := (List.mem_filter.mp hrep).2
        exact (of_decide_eq_true this) hc
      · right
        refine ⟨hc, ?_⟩
        have : (report_unchecked_attrs found checked).count attr.id = found.count attr.id :=
          count_filter_of_pos (fun i => decide (i ∉ checked)) attr.id
            (decide_eq_true hc) found
        rw [this, hcount1]

theorem checked_xor_reported_witness :
    (attr_cfg_on.id ∈ (FPassResult.mk [2] [2] [] []).checked ∧
      (FPassResult.mk [2] [2] [] []).reports.count attr_cfg_on.id = 0) ∨
    (attr_cfg_on.id ∉ (FPassResult.mk [2] [2] [] []).checked ∧
      (FPassResult.mk [2] [2] [] []).reports.count attr_cfg_on.id = 1) :=
  checked_xor_reported ["rev2"] knownTrue gOK krate_cfg_on
    (FPassResult.mk [2] [2] [] []) node_cfg_on attr_cfg_on
    rfl (by simp [krate_cfg_on]) (by simp [node_cfg_on, attr_cfg_on])
    (Or.inr rfl) rfl (by decide)

end DirtyClean
